import Mathlib

/-!
Shallow embedding of the Mermaid syntax validator (src/index.js) and proofs
about it.  The JavaScript core consists of the functions
`validateMermaidSyntax`, `validateFlowchart`, `validateSequenceDiagram`,
`detectDiagramType` and `countNodes`; each is translated below on
`List Char` (a JS string), with JS string methods (`split`, `trim`,
`startsWith`, `includes`, regex search/split/global match) modelled
character by character.
-/

set_option maxRecDepth 40000

namespace Mermaid

/-- The character class of JavaScript `\s` and `String.prototype.trim`:
ECMA WhiteSpace (TAB, VT, FF, SP, NBSP, BOM and the Unicode Zs spaces)
together with the LineTerminator characters (LF, CR, LS, PS). -/
def isJsWs (c : Char) : Bool :=
  c = ' ' || c = '\t' || c = '\n' || c = '\x0b' || c = '\x0c' || c = '\r' ||
  c = '\u00A0' || c = '\u1680' || ('\u2000' ≤ c && c ≤ '\u200A') ||
  c = '\u2028' || c = '\u2029' || c = '\u202F' || c = '\u205F' ||
  c = '\u3000' || c = '\uFEFF'

/-- JavaScript LineTerminator characters, which `.` in a regex does not match. -/
def isLineTermCh (c : Char) : Bool :=
  c = '\n' || c = '\r' || c = '\u2028' || c = '\u2029'

/-- The character class of JavaScript `\w`: ASCII letters, digits and `_`. -/
def isWordChar (c : Char) : Bool :=
  c.isAlpha || c.isDigit || c = '_'

/-- JavaScript `String.prototype.trim`: drop `isJsWs` characters from both ends. -/
def jsTrim (cs : List Char) : List Char :=
  ((cs.dropWhile isJsWs).reverse.dropWhile isJsWs).reverse

/-- JavaScript `diagram.split('\n')`: always returns at least one piece; the
empty string yields one empty line. -/
def splitNl : List Char → List (List Char)
  | [] => [[]]
  | c :: rest =>
    if c = '\n' then [] :: splitNl rest
    else
      match splitNl rest with
      | [] => [[c]]
      | l :: ls => (c :: l) :: ls

/-- JavaScript `String.prototype.includes` for a fixed search string `tok`. -/
def hasTok (tok : List Char) : List Char → Bool
  | [] => tok.isEmpty
  | c :: rest => List.isPrefixOf tok (c :: rest) || hasTok tok rest

/-- Decimal digits of a number, as JS template interpolation `${n}` prints it. -/
def natChars (n : Nat) : List Char := (Nat.repr n).data

/-- The validation result object: `isValid` plus the optional `error`,
`line` and `suggestions` fields of the objects src/index.js returns. -/
structure VResult where
  isValid : Bool
  error : Option (List Char)
  line : Option Nat
  suggestions : List (List Char)
deriving DecidableEq

/-- `{ isValid: true }`. -/
def validRes : VResult := ⟨true, none, none, []⟩

/-- `validTypes.join(', ')`. -/
def joinComma : List (List Char) → List Char
  | [] => []
  | [x] => x
  | x :: y :: rest => x ++ (", ").data ++ joinComma (y :: rest)

/-- The registered diagram-type keywords, in source order. -/
def validTypes : List (List Char) :=
  [("graph").data, ("flowchart").data, ("sequenceDiagram").data,
   ("classDiagram").data, ("stateDiagram").data, ("erDiagram").data,
   ("gitGraph").data, ("journey").data, ("gantt").data, ("pie").data,
   ("quadrantChart").data, ("mindmap").data, ("timeline").data]

/-- The invalid-diagram-type failure object. -/
def typeRes : VResult :=
  ⟨false,
   some (("Invalid diagram type. Must start with one of: ").data ++ joinComma validTypes),
   some 1,
   [("Add a valid diagram type declaration at the beginning").data]⟩

/-- The unmatched-square-brackets failure at 1-based line `n`. -/
def sqRes (n : Nat) : VResult :=
  ⟨false, some (("Unmatched square brackets on line ").data ++ natChars n),
   some n, [("Check that all [ have matching ]").data]⟩

/-- The unmatched-parentheses failure at 1-based line `n`. -/
def parenRes (n : Nat) : VResult :=
  ⟨false, some (("Unmatched parentheses on line ").data ++ natChars n),
   some n, [("Check that all ( have matching )").data]⟩

/-- The unmatched-curly-braces failure at 1-based line `n`. -/
def braceRes (n : Nat) : VResult :=
  ⟨false, some (("Unmatched curly braces on line ").data ++ natChars n),
   some n, [("Check that all \x7b have matching \x7d").data]⟩

/-- The invalid-arrow-syntax failure at 1-based line `n`. -/
def arrowRes (n : Nat) : VResult :=
  ⟨false, some (("Invalid arrow syntax on line ").data ++ natChars n),
   some n, [("Check that arrows connect two nodes").data]⟩

/-- The unclosed-subgraph failure: no line number. -/
def unclosedRes : VResult :=
  ⟨false, some (("Unclosed subgraph").data), none,
   [("Add \"end\" to close the subgraph").data]⟩

/-- The invalid-message-syntax failure at 1-based line `n`. -/
def msgRes (n : Nat) : VResult :=
  ⟨false, some (("Invalid message syntax on line ").data ++ natChars n),
   some n, [("Use format: Actor1->>Actor2: Message").data]⟩

/-- The bracket-balancer loop of `validateMermaidSyntax`: for each trimmed
content line, compare the counts of the three delimiter pairs in source
order and fail at the first mismatch; `i` is the 0-based index of the head. -/
def bracketScan : List (List Char) → Nat → Option VResult
  | [], _ => none
  | l :: rest, i =>
    if (jsTrim l).isEmpty || List.isPrefixOf (("%%").data) (jsTrim l) then
      bracketScan rest (i + 1)
    else if (jsTrim l).count '[' ≠ (jsTrim l).count ']' then some (sqRes (i + 1))
    else if (jsTrim l).count '(' ≠ (jsTrim l).count ')' then some (parenRes (i + 1))
    else if (jsTrim l).count '\x7b' ≠ (jsTrim l).count '\x7d' then some (braceRes (i + 1))
    else bracketScan rest (i + 1)

/-- One attempt of the regex `split` on the arrow pattern (alternatives `-->`, `---`, `-.->` with wildcard dot, `==>`) at the current position:
the alternatives are tried in order, `.` matches any non-LineTerminator
character; on success the remainder after the consumed token is returned. -/
def arrowMatchAt : List Char → Option (List Char)
  | c0 :: c1 :: c2 :: rest =>
    if c0 = '-' && c1 = '-' && c2 = '>' then some rest
    else if c0 = '-' && c1 = '-' && c2 = '-' then some rest
    else
      match rest with
      | c3 :: rest2 =>
        if c0 = '-' && !(isLineTermCh c1) && c2 = '-' && c3 = '>' then some rest2
        else if c0 = '=' && c1 = '=' && c2 = '>' then some rest
        else none
      | [] => if c0 = '=' && c1 = '=' && c2 = '>' then some rest else none
  | _ => none

/-- `line.split` on the arrow pattern: scan left to right, cutting at each
match; `fuel` only bounds the recursion and is always supplied as the
length of the input. -/
def splitArrowsAux : Nat → List Char → List Char → List (List Char)
  | _, acc, [] => [acc.reverse]
  | 0, acc, rest => [acc.reverse ++ rest]
  | fuel + 1, acc, c :: rest =>
    match arrowMatchAt (c :: rest) with
    | some rest2 => acc.reverse :: splitArrowsAux fuel [] rest2
    | none => splitArrowsAux fuel (c :: acc) rest

/-- `line.split` on the arrow pattern, via `splitArrowsAux`. -/
def splitArrows (cs : List Char) : List (List Char) :=
  splitArrowsAux cs.length [] cs

/-- The connector test of `validateFlowchart`:
`line.includes('-->') || line.includes('---') || line.includes('-.->') || line.includes('==>')`
(the `includes` arguments are literal strings, dot included). -/
def containsArrow (t : List Char) : Bool :=
  hasTok (("-->").data) t || hasTok (("---").data) t ||
  hasTok (("-.->").data) t || hasTok (("==>").data) t

/-- The loop of `validateFlowchart`: track the `inSubgraph` flag, check the
arrow split on connector lines, and report an unclosed subgraph at the end. -/
def flowScan : List (List Char) → Nat → Bool → VResult
  | [], _, inSub => if inSub then unclosedRes else validRes
  | l :: rest, i, inSub =>
    if (jsTrim l).isEmpty || List.isPrefixOf (("%%").data) (jsTrim l) then
      flowScan rest (i + 1) inSub
    else if containsArrow (jsTrim l) && decide ((splitArrows (jsTrim l)).length < 2) then
      arrowRes (i + 1)
    else
      flowScan rest (i + 1)
        (if List.isPrefixOf (("subgraph").data) (jsTrim l) then true
         else if jsTrim l = ("end").data then false
         else inSub)

/-- One attempt of the regex `/participant\s+(\w+)/` at the current position.
`\s+` and `\w+` are forced to their maximal runs: taking fewer `\s` leaves a
whitespace character where `\w` is required, and `\w+` is final. -/
def tryPartAt (cs : List Char) : Option (List Char) :=
  if List.isPrefixOf (("participant").data) cs then
    let r := cs.drop 11
    if (r.takeWhile isJsWs).isEmpty then none
    else
      let w := (r.dropWhile isJsWs).takeWhile isWordChar
      if w.isEmpty then none else some w
  else none

/-- The unanchored search `line.match(/participant\s+(\w+)/)`, returning the
first capture. -/
def extractPart : List Char → Option (List Char)
  | [] => none
  | c :: rest =>
    match tryPartAt (c :: rest) with
    | some w => some w
    | none => extractPart rest

/-- `Set.prototype.add` on a set represented as a duplicate-free list in
insertion order. -/
def insertSet (w : List Char) (s : List (List Char)) : List (List Char) :=
  if s.contains w then s else s ++ [w]

/-- `\s*\w+` continuation after an arrow in the message regex: any run of
whitespace followed by at least one word character. -/
def msgTail (cs : List Char) : Bool :=
  match cs.dropWhile isJsWs with
  | [] => false
  | c :: _ => isWordChar c

/-- One attempt of `/(\w+)\s*(->>|-->>)\s*(\w+)/` at the current position.
Because `\w`, `\s` and the arrow head `-` are pairwise disjoint character
classes, the greedy `\w+` and `\s*` runs are forced to be maximal, and the
two arrow alternatives can never both be prefixes of the rest, so the
backtracking search reduces to this direct test. -/
def msgFromHere (cs : List Char) : Bool :=
  if (cs.takeWhile isWordChar).isEmpty then false
  else
    let r := (cs.dropWhile isWordChar).dropWhile isJsWs
    (List.isPrefixOf (("->>").data) r && msgTail (r.drop 3)) ||
    (List.isPrefixOf (("-->>").data) r && msgTail (r.drop 4))

/-- The unanchored search `line.match(/(\w+)\s*(->>|-->>)\s*(\w+)/) !== null`. -/
def seqMsgMatch : List Char → Bool
  | [] => false
  | c :: rest => msgFromHere (c :: rest) || seqMsgMatch rest

/-- The loop of `validateSequenceDiagram`: collect participants (the set is
never read by any check, exactly as in the source) and flag message-arrow
lines that do not match the message regex. -/
def seqScan : List (List Char) → Nat → List (List Char) → VResult
  | [], _, _ => validRes
  | l :: rest, i, ps =>
    if (jsTrim l).isEmpty || List.isPrefixOf (("%%").data) (jsTrim l) then
      seqScan rest (i + 1) ps
    else if (hasTok (("->>").data) (jsTrim l) || hasTok (("-->>").data) (jsTrim l)) &&
        !(seqMsgMatch (jsTrim l)) then msgRes (i + 1)
    else
      seqScan rest (i + 1)
        (if List.isPrefixOf (("participant").data) (jsTrim l) then
          match extractPart (jsTrim l) with
          | some w => insertSet w ps
          | none => ps
        else ps)

/-- `validateMermaidSyntax(diagram)`.  `none` models the TypeError JavaScript
would raise in `lines[0].trim()` were `split` ever to return an empty array
(it never does; see the totality theorem). -/
def validateMermaidSyntax (d : List Char) : Option VResult :=
  match splitNl d with
  | [] => none
  | l0 :: rest =>
    if !(validTypes.any fun t => List.isPrefixOf t (jsTrim l0)) then some typeRes
    else
      match bracketScan (l0 :: rest) 0 with
      | some r => some r
      | none =>
        if List.isPrefixOf (("graph").data) (jsTrim l0) ||
            List.isPrefixOf (("flowchart").data) (jsTrim l0) then
          some (flowScan (l0 :: rest) 0 false)
        else if List.isPrefixOf (("sequenceDiagram").data) (jsTrim l0) then
          some (seqScan (l0 :: rest) 0 [])
        else some validRes

/-- The chain of `startsWith` tests of `detectDiagramType` on the trimmed
first line, in source order. -/
def detectLineType (firstLine : List Char) : List Char :=
  if List.isPrefixOf (("graph").data) firstLine then ("flowchart").data
  else if List.isPrefixOf (("flowchart").data) firstLine then ("flowchart").data
  else if List.isPrefixOf (("sequenceDiagram").data) firstLine then ("sequence").data
  else if List.isPrefixOf (("classDiagram").data) firstLine then ("class").data
  else if List.isPrefixOf (("stateDiagram").data) firstLine then ("state").data
  else if List.isPrefixOf (("erDiagram").data) firstLine then ("er").data
  else if List.isPrefixOf (("gantt").data) firstLine then ("gantt").data
  else if List.isPrefixOf (("pie").data) firstLine then ("pie").data
  else if List.isPrefixOf (("journey").data) firstLine then ("journey").data
  else if List.isPrefixOf (("gitGraph").data) firstLine then ("gitGraph").data
  else if List.isPrefixOf (("mindmap").data) firstLine then ("mindmap").data
  else if List.isPrefixOf (("timeline").data) firstLine then ("timeline").data
  else ("unknown").data

/-- `detectDiagramType(diagram)`: `detectLineType` on the trimmed first line
`diagram.split('\n')[0].trim()`. -/
def detectDiagramType (d : List Char) : List Char :=
  detectLineType (jsTrim ((splitNl d).headD []))

/-- Scan for `]` after `[` in the node regex `/\w+\[.*?\]/`: the lazy `.*?`
stops at the first `]`, and fails if a LineTerminator (which `.` cannot
match) or the end of input comes first. -/
def findClose : List Char → Option (List Char)
  | [] => none
  | c :: rest =>
    if c = ']' then some rest
    else if isLineTermCh c then none
    else findClose rest

/-- One attempt of `/\w+\[.*?\]/` at the current position, returning the
remainder after the match. -/
def tryNodeTok : List Char → Option (List Char)
  | [] => none
  | c :: rest =>
    if isWordChar c then
      match (c :: rest).dropWhile isWordChar with
      | '[' :: rest2 => findClose rest2
      | _ => none
    else none

/-- The global scan `diagram.match(/\w+\[.*?\]/g).length`: count
non-overlapping matches left to right. -/
def scanNodeToks : Nat → List Char → Nat
  | _, [] => 0
  | 0, _ => 0
  | fuel + 1, c :: rest =>
    match tryNodeTok (c :: rest) with
    | some rest2 => 1 + scanNodeToks fuel rest2
    | none => scanNodeToks fuel rest

/-- `\s*\w+` continuation after an arrow in the connection regex, returning
the matched text (whitespace run and word run) and the remainder. -/
def connTail (r : List Char) : Option (List Char × List Char) :=
  let r2 := r.dropWhile isJsWs
  let w := r2.takeWhile isWordChar
  if w.isEmpty then none
  else some (r.takeWhile isJsWs ++ w, r2.dropWhile isWordChar)

/-- The arrow alternation `(-->|---|-.->|==>)` of the connection regex with
its continuation: alternatives are tried in order and the first whose
continuation also succeeds wins (JS backtracking), `.` matching any
non-LineTerminator character. -/
def connArrow (r : List Char) : Option (List Char × List Char) :=
  match r with
  | c0 :: c1 :: c2 :: rest =>
    (if c0 = '-' && c1 = '-' && c2 = '>' then
      (connTail rest).map fun (p : List Char × List Char) => ([c0, c1, c2] ++ p.1, p.2)
    else none).orElse fun _ =>
    (if c0 = '-' && c1 = '-' && c2 = '-' then
      (connTail rest).map fun (p : List Char × List Char) => ([c0, c1, c2] ++ p.1, p.2)
    else none).orElse fun _ =>
    (match rest with
    | c3 :: rest2 =>
      if c0 = '-' && !(isLineTermCh c1) && c2 = '-' && c3 = '>' then
        (connTail rest2).map fun (p : List Char × List Char) => ([c0, c1, c2, c3] ++ p.1, p.2)
      else none
    | [] => none).orElse fun _ =>
    (if c0 = '=' && c1 = '=' && c2 = '>' then
      (connTail rest).map fun (p : List Char × List Char) => ([c0, c1, c2] ++ p.1, p.2)
    else none)
  | _ => none

/-- One attempt of `/(\w+)\s*(-->|---|-.->|==>)\s*(\w+)/` at the current
position, returning the whole matched text and the remainder. -/
def tryConn (cs : List Char) : Option (List Char × List Char) :=
  let w1 := cs.takeWhile isWordChar
  if w1.isEmpty then none
  else
    let r1 := cs.dropWhile isWordChar
    match connArrow (r1.dropWhile isJsWs) with
    | some (m, rem) => some (w1 ++ r1.takeWhile isJsWs ++ m, rem)
    | none => none

/-- The global scan `diagram.match(/(\w+)\s*(-->|---|-.->|==>)\s*(\w+)/g)`,
returning the list of match strings. -/
def scanConns : Nat → List Char → List (List Char)
  | _, [] => []
  | 0, _ => []
  | fuel + 1, c :: rest =>
    match tryConn (c :: rest) with
    | some (m, rem) => m :: scanConns fuel rem
    | none => scanConns fuel rest

/-- `if (parts[k]) nodeIds.add(parts[k].trim())`: empty strings are falsy. -/
def addPart (s : List (List Char)) (p : List Char) : List (List Char) :=
  if p.isEmpty then s else insertSet (jsTrim p) s

/-- The `nodeIds` set of `countNodes`: split every connection match on the
arrow regex again and collect the trimmed first two pieces. -/
def connIds (ms : List (List Char)) : List (List Char) :=
  ms.foldl
    (fun s m =>
      let parts := splitArrows m
      addPart (addPart s (parts.headD [])) (parts.getD 1 []))
    []

/-- `countNodes(diagram)`: label-bracket matches plus the size of the
connection-identifier set. -/
def countNodes (d : List Char) : Nat :=
  scanNodeToks d.length d + (connIds (scanConns d.length d)).length

/-- Everything the HTTP success path reports about a diagram: the validation
result together with `detectDiagramType` and `countNodes`.  The core holds no
state, so one call is one evaluation of this pure function. -/
def validateResponse (d : List Char) : Option VResult × List Char × Nat :=
  (validateMermaidSyntax d, detectDiagramType d, countNodes d)

/-- A trimmed line the validator inspects: non-blank and not a `%%` comment. -/
def contentLine (t : List Char) : Bool :=
  !t.isEmpty && !(List.isPrefixOf (("%%").data) t)

/-- A raw line on which the bracket balancer reports a failure: a content
line with unequal counts for at least one of the three delimiter pairs. -/
def mismatchLine (l : List Char) : Bool :=
  contentLine (jsTrim l) &&
  ((jsTrim l).count '[' != (jsTrim l).count ']' ||
   (jsTrim l).count '(' != (jsTrim l).count ')' ||
   (jsTrim l).count '\x7b' != (jsTrim l).count '\x7d')

/-- The failure the bracket balancer builds for trimmed line `t` at 1-based
line `n`: the first mismatched pair in source check order names the kind. -/
def mismatchRes (t : List Char) (n : Nat) : VResult :=
  if t.count '[' ≠ t.count ']' then sqRes n
  else if t.count '(' ≠ t.count ')' then parenRes n
  else braceRes n

/-- A raw line the sequence-diagram validator flags: a content line holding a
message-arrow token whose text the message regex does not match. -/
def badMsgLine (l : List Char) : Bool :=
  contentLine (jsTrim l) &&
  (hasTok (("->>").data) (jsTrim l) || hasTok (("-->>").data) (jsTrim l)) &&
  !(seqMsgMatch (jsTrim l))

/-- The document routes to the flowchart validator: its first line's trimmed
text starts with `graph` or `flowchart`. -/
def isFlowFamily (d : List Char) : Bool :=
  List.isPrefixOf (("graph").data) (jsTrim ((splitNl d).headD [])) ||
  List.isPrefixOf (("flowchart").data) (jsTrim ((splitNl d).headD []))

/-- A result whose error message cites invalid arrow syntax. -/
def isArrowErr (r : VResult) : Bool :=
  match r.error with
  | some e => List.isPrefixOf (("Invalid arrow syntax").data) e
  | none => false

/-- Whether a call of the validator produced an invalid-arrow-syntax error. -/
def resultCitesArrow : Option VResult → Bool
  | some r => isArrowErr r
  | none => false

/-- The keyword-to-type registry of `detectDiagramType`, in source order. -/
def detectRegistry : List (List Char × List Char) :=
  [(("graph").data, ("flowchart").data),
   (("flowchart").data, ("flowchart").data),
   (("sequenceDiagram").data, ("sequence").data),
   (("classDiagram").data, ("class").data),
   (("stateDiagram").data, ("state").data),
   (("erDiagram").data, ("er").data),
   (("gantt").data, ("gantt").data),
   (("pie").data, ("pie").data),
   (("journey").data, ("journey").data),
   (("gitGraph").data, ("gitGraph").data),
   (("mindmap").data, ("mindmap").data),
   (("timeline").data, ("timeline").data)]

/-- Modelled from the spec: the type selected by matching the registered
keywords, in registry order, against a trimmed line. -/
def specDetectLine (t : List Char) : List Char :=
  match detectRegistry.find? (fun p => List.isPrefixOf p.1 t) with
  | some p => p.2
  | none => ("unknown").data

/-- Modelled from the spec: type detection applied to the document's first
line (line index 1). -/
def specDetectFirstLine (d : List Char) : List Char :=
  specDetectLine (jsTrim ((splitNl d).headD []))

/-- Modelled from the spec (§3 data model): type detection applied to the
document's first NON-BLANK line. -/
def specDetectFirstNonBlank (d : List Char) : List Char :=
  match (splitNl d).find? (fun l => !(jsTrim l).isEmpty) with
  | some l => specDetectLine (jsTrim l)
  | none => ("unknown").data

lemma splitNl_ne_nil (d : List Char) : splitNl d ≠ [] := by
  match d with
  | [] => simp [splitNl]
  | c :: rest =>
    unfold splitNl
    by_cases h : c = '\n'
    · simp [h]
    · simp only [if_neg h]
      cases hr : splitNl rest <;> simp

lemma arrowMatchAt_some_1 (cs : List Char)
    (h : List.isPrefixOf (("-->").data) cs = true) :
    (arrowMatchAt cs).isSome = true := by
  match cs with
  | [] => rw [show ("-->").data = ['-', '-', '>'] from rfl] at h; simp [List.isPrefixOf] at h
  | [c0] => rw [show ("-->").data = ['-', '-', '>'] from rfl] at h; simp [List.isPrefixOf] at h
  | [c0, c1] => rw [show ("-->").data = ['-', '-', '>'] from rfl] at h; simp [List.isPrefixOf] at h
  | c0 :: c1 :: c2 :: rest =>
    rw [show ("-->").data = ['-', '-', '>'] from rfl] at h
    simp only [List.isPrefixOf, Bool.and_eq_true, beq_iff_eq] at h
    obtain ⟨h0, h1, h2, -⟩ := h
    subst h0; subst h1; subst h2
    rfl

lemma arrowMatchAt_some_2 (cs : List Char)
    (h : List.isPrefixOf (("---").data) cs = true) :
    (arrowMatchAt cs).isSome = true := by
  match cs with
  | [] => rw [show ("---").data = ['-', '-', '-'] from rfl] at h; simp [List.isPrefixOf] at h
  | [c0] => rw [show ("---").data = ['-', '-', '-'] from rfl] at h; simp [List.isPrefixOf] at h
  | [c0, c1] => rw [show ("---").data = ['-', '-', '-'] from rfl] at h; simp [List.isPrefixOf] at h
  | c0 :: c1 :: c2 :: rest =>
    rw [show ("---").data = ['-', '-', '-'] from rfl] at h
    simp only [List.isPrefixOf, Bool.and_eq_true, beq_iff_eq] at h
    obtain ⟨h0, h1, h2, -⟩ := h
    subst h0; subst h1; subst h2
    rfl

lemma arrowMatchAt_some_3 (cs : List Char)
    (h : List.isPrefixOf (("-.->").data) cs = true) :
    (arrowMatchAt cs).isSome = true := by
  match cs with
  | [] => rw [show ("-.->").data = ['-', '.', '-', '>'] from rfl] at h; simp [List.isPrefixOf] at h
  | [c0] => rw [show ("-.->").data = ['-', '.', '-', '>'] from rfl] at h; simp [List.isPrefixOf] at h
  | [c0, c1] => rw [show ("-.->").data = ['-', '.', '-', '>'] from rfl] at h; simp [List.isPrefixOf] at h
  | [c0, c1, c2] => rw [show ("-.->").data = ['-', '.', '-', '>'] from rfl] at h; simp [List.isPrefixOf] at h
  | c0 :: c1 :: c2 :: c3 :: rest =>
    rw [show ("-.->").data = ['-', '.', '-', '>'] from rfl] at h
    simp only [List.isPrefixOf, Bool.and_eq_true, beq_iff_eq] at h
    obtain ⟨h0, h1, h2, h3, -⟩ := h
    subst h0; subst h1; subst h2; subst h3
    rfl

lemma arrowMatchAt_some_4 (cs : List Char)
    (h : List.isPrefixOf (("==>").data) cs = true) :
    (arrowMatchAt cs).isSome = true := by
  match cs with
  | [] => rw [show ("==>").data = ['=', '=', '>'] from rfl] at h; simp [List.isPrefixOf] at h
  | [c0] => rw [show ("==>").data = ['=', '=', '>'] from rfl] at h; simp [List.isPrefixOf] at h
  | [c0, c1] => rw [show ("==>").data = ['=', '=', '>'] from rfl] at h; simp [List.isPrefixOf] at h
  | c0 :: c1 :: c2 :: rest =>
    rw [show ("==>").data = ['=', '=', '>'] from rfl] at h
    simp only [List.isPrefixOf, Bool.and_eq_true, beq_iff_eq] at h
    obtain ⟨h0, h1, h2, -⟩ := h
    subst h0; subst h1; subst h2
    cases rest <;> rfl

lemma splitArrowsAux_len_pos (fuel : Nat) :
    ∀ acc cs, 1 ≤ (splitArrowsAux fuel acc cs).length := by
  induction fuel with
  | zero =>
    intro acc cs
    cases cs <;> simp [splitArrowsAux]
  | succ f ih =>
    intro acc cs
    cases cs with
    | nil => simp [splitArrowsAux]
    | cons c rest =>
      unfold splitArrowsAux
      cases hm : arrowMatchAt (c :: rest) with
      | some rest2 => simp
      | none => simpa using ih (c :: acc) rest

lemma splitArrowsAux_ge_two (cs : List Char) :
    ∀ fuel acc, cs.length ≤ fuel → containsArrow cs = true →
    2 ≤ (splitArrowsAux fuel acc cs).length := by
  induction cs with
  | nil =>
    intro fuel acc _ hc
    rw [show containsArrow [] = false from rfl] at hc
    cases hc
  | cons c rest ih =>
    intro fuel acc hf hc
    cases fuel with
    | zero => simp at hf
    | succ f =>
      unfold splitArrowsAux
      cases hm : arrowMatchAt (c :: rest) with
      | some rest2 =>
        have := splitArrowsAux_len_pos f [] rest2
        simp
        omega
      | none =>
        have hno : (arrowMatchAt (c :: rest)).isSome = false := by rw [hm]; rfl
        have hc2 : containsArrow rest = true := by
          simp only [containsArrow, hasTok, Bool.or_eq_true] at hc ⊢
          rcases hc with ((h | h) | h) | h
          · rcases h with h | h
            · rw [arrowMatchAt_some_1 _ h] at hno; cases hno
            · exact Or.inl (Or.inl (Or.inl h))
          · rcases h with h | h
            · rw [arrowMatchAt_some_2 _ h] at hno; cases hno
            · exact Or.inl (Or.inl (Or.inr h))
          · rcases h with h | h
            · rw [arrowMatchAt_some_3 _ h] at hno; cases hno
            · exact Or.inl (Or.inr h)
          · rcases h with h | h
            · rw [arrowMatchAt_some_4 _ h] at hno; cases hno
            · exact Or.inr h
        have hf2 : rest.length ≤ f := by simpa using hf
        exact ih f (c :: acc) hf2 hc2

lemma splitArrows_ge_two (cs : List Char) (hc : containsArrow cs = true) :
    2 ≤ (splitArrows cs).length :=
  splitArrowsAux_ge_two cs cs.length [] le_rfl hc

lemma flow_branch_false (t : List Char) :
    (containsArrow t && decide ((splitArrows t).length < 2)) = false := by
  cases hc : containsArrow t with
  | false => rfl
  | true =>
    have := splitArrows_ge_two t hc
    simp only [Bool.true_and, decide_eq_false_iff_not]
    omega

lemma contentLine_skip (t : List Char) :
    contentLine t = false ↔ (t.isEmpty || List.isPrefixOf (("%%").data) t) = true := by
  simp [contentLine]
  tauto

lemma bracketScan_none (ls : List (List Char)) :
    ∀ i, (∀ l ∈ ls, mismatchLine l = false) → bracketScan ls i = none := by
  induction ls with
  | nil => intro i _; rfl
  | cons l rest ih =>
    intro i h
    have hl := h l (by simp)
    have hrest := fun x hx => h x (List.mem_cons_of_mem _ hx)
    unfold bracketScan
    by_cases hskip : ((jsTrim l).isEmpty || List.isPrefixOf (("%%").data) (jsTrim l)) = true
    · rw [if_pos hskip]
      exact ih (i + 1) hrest
    · rw [if_neg hskip]
      have hcontent : contentLine (jsTrim l) = true := by
        cases hct : contentLine (jsTrim l) with
        | true => rfl
        | false => exact absurd ((contentLine_skip _).mp hct) hskip
      simp only [mismatchLine, hcontent, Bool.true_and, Bool.or_eq_false_iff,
        bne_eq_false_iff_eq] at hl
      rw [if_neg (by simp [hl.1.1]), if_neg (by simp [hl.1.2]), if_neg (by simp [hl.2])]
      exact ih (i + 1) hrest

lemma bracketScan_found (pre : List (List Char)) :
    ∀ i l post, mismatchLine l = true → (∀ x ∈ pre, mismatchLine x = false) →
    bracketScan (pre ++ l :: post) i = some (mismatchRes (jsTrim l) (i + pre.length + 1)) := by
  induction pre with
  | nil =>
    intro i l post hl _
    have hcontent : contentLine (jsTrim l) = true := by
      cases hct : contentLine (jsTrim l) with
      | true => rfl
      | false => simp [mismatchLine, hct] at hl
    have hskip : ((jsTrim l).isEmpty || List.isPrefixOf (("%%").data) (jsTrim l)) = false := by
      cases hsk : ((jsTrim l).isEmpty || List.isPrefixOf (("%%").data) (jsTrim l)) with
      | false => rfl
      | true =>
        rw [show contentLine (jsTrim l) = false from (contentLine_skip _).mpr hsk] at hcontent
        cases hcontent
    simp only [List.nil_append, List.length_nil]
    unfold bracketScan
    rw [if_neg (by simp [hskip])]
    simp only [mismatchLine, hcontent, Bool.true_and, Bool.or_eq_true, bne_iff_ne] at hl
    unfold mismatchRes
    by_cases h1 : (jsTrim l).count '[' ≠ (jsTrim l).count ']'
    · rw [if_pos h1, if_pos h1]
    · rw [if_neg h1, if_neg h1]
      by_cases h2 : (jsTrim l).count '(' ≠ (jsTrim l).count ')'
      · rw [if_pos h2, if_pos h2]
      · rw [if_neg h2, if_neg h2]
        have h3 : (jsTrim l).count '\x7b' ≠ (jsTrim l).count '\x7d' := by tauto
        rw [if_pos h3]
  | cons p pre ih =>
    intro i l post hl hpre
    have hp := hpre p (by simp)
    have hpre2 := fun x hx => hpre x (List.mem_cons_of_mem _ hx)
    have step := ih (i + 1) l post hl hpre2
    simp only [List.cons_append]
    unfold bracketScan
    by_cases hskip : ((jsTrim p).isEmpty || List.isPrefixOf (("%%").data) (jsTrim p)) = true
    · rw [if_pos hskip, step]
      have harith : i + 1 + pre.length + 1 = i + (p :: pre).length + 1 := by
        simp only [List.length_cons]; omega
      rw [harith]
    · rw [if_neg hskip]
      have hcontent : contentLine (jsTrim p) = true := by
        cases hct : contentLine (jsTrim p) with
        | true => rfl
        | false => exact absurd ((contentLine_skip _).mp hct) hskip
      simp only [mismatchLine, hcontent, Bool.true_and, Bool.or_eq_false_iff,
        bne_eq_false_iff_eq] at hp
      rw [if_neg (by simp [hp.1.1]), if_neg (by simp [hp.1.2]), if_neg (by simp [hp.2]), step]
      have harith : i + 1 + pre.length + 1 = i + (p :: pre).length + 1 := by
        simp only [List.length_cons]; omega
      rw [harith]

lemma bracketScan_res (ls : List (List Char)) :
    ∀ i, bracketScan ls i = none ∨
      ∃ n, bracketScan ls i = some (sqRes n) ∨ bracketScan ls i = some (parenRes n) ∨
        bracketScan ls i = some (braceRes n) := by
  induction ls with
  | nil => intro i; exact Or.inl rfl
  | cons l rest ih =>
    intro i
    unfold bracketScan
    split_ifs with h1 h2 h3 h4
    · exact ih (i + 1)
    · exact Or.inr ⟨i + 1, Or.inl rfl⟩
    · exact Or.inr ⟨i + 1, Or.inr (Or.inl rfl)⟩
    · exact Or.inr ⟨i + 1, Or.inr (Or.inr rfl)⟩
    · exact ih (i + 1)

lemma flowScan_stay_open (ls : List (List Char)) :
    ∀ i, (∀ l ∈ ls, contentLine (jsTrim l) = true → jsTrim l ≠ ("end").data) →
    flowScan ls i true = unclosedRes := by
  induction ls with
  | nil => intro i _; rfl
  | cons l rest ih =>
    intro i h
    have hl := h l (by simp)
    have hrest := fun x hx => h x (List.mem_cons_of_mem _ hx)
    unfold flowScan
    rw [flow_branch_false]
    by_cases hskip : ((jsTrim l).isEmpty || List.isPrefixOf (("%%").data) (jsTrim l)) = true
    · rw [if_pos hskip]
      exact ih (i + 1) hrest
    · rw [if_neg hskip]
      have hcontent : contentLine (jsTrim l) = true := by
        cases hct : contentLine (jsTrim l) with
        | true => rfl
        | false => exact absurd ((contentLine_skip _).mp hct) hskip
      simp only [Bool.false_eq_true, if_false]
      have hne : jsTrim l ≠ ("end").data := hl hcontent
      by_cases hsub : List.isPrefixOf (("subgraph").data) (jsTrim l) = true
      · rw [if_pos hsub]
        exact ih (i + 1) hrest
      · rw [if_neg hsub, if_neg hne]
        exact ih (i + 1) hrest

lemma flowScan_unclosed (pre : List (List Char)) :
    ∀ i b l post, contentLine (jsTrim l) = true →
    List.isPrefixOf (("subgraph").data) (jsTrim l) = true →
    (∀ x ∈ post, contentLine (jsTrim x) = true → jsTrim x ≠ ("end").data) →
    flowScan (pre ++ l :: post) i b = unclosedRes := by
  induction pre with
  | nil =>
    intro i b l post hcontent hsub hpost
    simp only [List.nil_append]
    unfold flowScan
    rw [flow_branch_false]
    have hskip : ((jsTrim l).isEmpty || List.isPrefixOf (("%%").data) (jsTrim l)) = false := by
      cases hsk : ((jsTrim l).isEmpty || List.isPrefixOf (("%%").data) (jsTrim l)) with
      | false => rfl
      | true =>
        rw [show contentLine (jsTrim l) = false from (contentLine_skip _).mpr hsk] at hcontent
        cases hcontent
    rw [if_neg (by simp [hskip]), if_pos hsub]
    simp only [Bool.false_eq_true, if_false]
    exact flowScan_stay_open post (i + 1) hpost
  | cons p pre ih =>
    intro i b l post hcontent hsub hpost
    simp only [List.cons_append]
    unfold flowScan
    rw [flow_branch_false]
    simp only [Bool.false_eq_true, if_false]
    by_cases hskip : ((jsTrim p).isEmpty || List.isPrefixOf (("%%").data) (jsTrim p)) = true
    · rw [if_pos hskip]
      exact ih (i + 1) b l post hcontent hsub hpost
    · rw [if_neg hskip]
      exact ih (i + 1) _ l post hcontent hsub hpost

lemma flowScan_res (ls : List (List Char)) :
    ∀ i b, flowScan ls i b = validRes ∨ flowScan ls i b = unclosedRes := by
  induction ls with
  | nil =>
    intro i b
    cases b
    · exact Or.inl rfl
    · exact Or.inr rfl
  | cons l rest ih =>
    intro i b
    unfold flowScan
    rw [flow_branch_false]
    simp only [Bool.false_eq_true, if_false]
    split_ifs <;> exact ih (i + 1) _

lemma seqScan_res (ls : List (List Char)) :
    ∀ i ps, seqScan ls i ps = validRes ∨ ∃ n, seqScan ls i ps = msgRes n := by
  induction ls with
  | nil => intro i ps; exact Or.inl rfl
  | cons l rest ih =>
    intro i ps
    unfold seqScan
    by_cases h1 : ((jsTrim l).isEmpty || List.isPrefixOf (("%%").data) (jsTrim l)) = true
    · rw [if_pos h1]
      exact ih (i + 1) ps
    · rw [if_neg h1]
      by_cases h2 : ((hasTok (("->>").data) (jsTrim l) || hasTok (("-->>").data) (jsTrim l)) &&
          !(seqMsgMatch (jsTrim l))) = true
      · rw [if_pos h2]
        exact Or.inr ⟨i + 1, rfl⟩
      · rw [if_neg h2]
        exact ih (i + 1) _

lemma seqScan_found (pre : List (List Char)) :
    ∀ i ps l post, badMsgLine l = true → (∀ x ∈ pre, badMsgLine x = false) →
    seqScan (pre ++ l :: post) i ps = msgRes (i + pre.length + 1) := by
  induction pre with
  | nil =>
    intro i ps l post hl _
    have hcontent : contentLine (jsTrim l) = true := by
      cases hct : contentLine (jsTrim l) with
      | true => rfl
      | false => simp [badMsgLine, hct] at hl
    have hskip : ((jsTrim l).isEmpty || List.isPrefixOf (("%%").data) (jsTrim l)) = false := by
      cases hsk : ((jsTrim l).isEmpty || List.isPrefixOf (("%%").data) (jsTrim l)) with
      | false => rfl
      | true =>
        rw [show contentLine (jsTrim l) = false from (contentLine_skip _).mpr hsk] at hcontent
        cases hcontent
    simp only [List.nil_append, List.length_nil]
    unfold seqScan
    rw [if_neg (by simp [hskip])]
    simp only [badMsgLine, hcontent, Bool.true_and, Bool.and_eq_true] at hl
    rw [if_pos (by simp [hl.1, hl.2])]
  | cons p pre ih =>
    intro i ps l post hl hpre
    have hp := hpre p (by simp)
    have hpre2 := fun x hx => hpre x (List.mem_cons_of_mem _ hx)
    simp only [List.cons_append]
    unfold seqScan
    by_cases hskip : ((jsTrim p).isEmpty || List.isPrefixOf (("%%").data) (jsTrim p)) = true
    · rw [if_pos hskip, ih (i + 1) ps l post hl hpre2]
      have harith : i + 1 + pre.length + 1 = i + (p :: pre).length + 1 := by
        simp only [List.length_cons]; omega
      rw [harith]
    · rw [if_neg hskip]
      have hcontent : contentLine (jsTrim p) = true := by
        cases hct : contentLine (jsTrim p) with
        | true => rfl
        | false => exact absurd ((contentLine_skip _).mp hct) hskip
      have hcond : ((hasTok (("->>").data) (jsTrim p) || hasTok (("-->>").data) (jsTrim p)) &&
          !(seqMsgMatch (jsTrim p))) = false := by
        simp only [badMsgLine, hcontent, Bool.true_and] at hp
        exact hp
      rw [if_neg (by simp [hcond])]
      rw [ih (i + 1) _ l post hl hpre2]
      have harith : i + 1 + pre.length + 1 = i + (p :: pre).length + 1 := by
        simp only [List.length_cons]; omega
      rw [harith]

lemma isArrowErr_typeRes : isArrowErr typeRes = false := by decide

lemma isArrowErr_validRes : isArrowErr validRes = false := rfl

lemma isArrowErr_unclosedRes : isArrowErr unclosedRes = false := rfl

lemma isArrowErr_sqRes (n : Nat) : isArrowErr (sqRes n) = false := rfl

lemma isArrowErr_parenRes (n : Nat) : isArrowErr (parenRes n) = false := rfl

lemma isArrowErr_braceRes (n : Nat) : isArrowErr (braceRes n) = false := rfl

lemma isArrowErr_msgRes (n : Nat) : isArrowErr (msgRes n) = false := rfl

lemma isArrowErr_arrowRes (n : Nat) : isArrowErr (arrowRes n) = true := rfl

lemma any_validTypes_graph (t : List Char)
    (h : List.isPrefixOf (("graph").data) t = true) :
    (validTypes.any fun x => List.isPrefixOf x t) = true := by
  simp only [validTypes, List.any_cons, List.any_nil, Bool.or_eq_true]
  exact Or.inl h

lemma any_validTypes_flowchart (t : List Char)
    (h : List.isPrefixOf (("flowchart").data) t = true) :
    (validTypes.any fun x => List.isPrefixOf x t) = true := by
  simp only [validTypes, List.any_cons, List.any_nil, Bool.or_eq_true]
  exact Or.inr (Or.inl h)

lemma any_validTypes_seq (t : List Char)
    (h : List.isPrefixOf (("sequenceDiagram").data) t = true) :
    (validTypes.any fun x => List.isPrefixOf x t) = true := by
  simp only [validTypes, List.any_cons, List.any_nil, Bool.or_eq_true]
  exact Or.inr (Or.inr (Or.inl h))

lemma seq_not_flow (t : List Char)
    (h : List.isPrefixOf (("sequenceDiagram").data) t = true) :
    (List.isPrefixOf (("graph").data) t || List.isPrefixOf (("flowchart").data) t) = false := by
  match t with
  | [] => rw [show ("sequenceDiagram").data = 's' :: ("equenceDiagram").data from rfl] at h
          simp [List.isPrefixOf] at h
  | c :: t2 =>
    rw [show ("sequenceDiagram").data = 's' :: ("equenceDiagram").data from rfl] at h
    simp only [List.isPrefixOf, Bool.and_eq_true, beq_iff_eq] at h
    rw [← h.1]
    rfl

lemma validate_no_arrow (d : List Char) :
    resultCitesArrow (validateMermaidSyntax d) = false := by
  unfold validateMermaidSyntax
  cases hs : splitNl d with
  | nil => exact absurd hs (splitNl_ne_nil d)
  | cons l0 rest =>
    simp only []
    by_cases hty : (!(validTypes.any fun t => List.isPrefixOf t (jsTrim l0))) = true
    · rw [if_pos hty]
      exact isArrowErr_typeRes
    · rw [if_neg hty]
      rcases bracketScan_res (l0 :: rest) 0 with hb | ⟨n, hb | hb | hb⟩
      · rw [hb]
        by_cases hflow : (List.isPrefixOf (("graph").data) (jsTrim l0) ||
            List.isPrefixOf (("flowchart").data) (jsTrim l0)) = true
        · rw [if_pos hflow]
          rcases flowScan_res (l0 :: rest) 0 false with hf | hf
          · rw [hf]; exact isArrowErr_validRes
          · rw [hf]; exact isArrowErr_unclosedRes
        · rw [if_neg hflow]
          by_cases hseq : (List.isPrefixOf (("sequenceDiagram").data) (jsTrim l0)) = true
          · rw [if_pos hseq]
            rcases seqScan_res (l0 :: rest) 0 [] with hq | ⟨n, hq⟩
            · rw [hq]; exact isArrowErr_validRes
            · rw [hq]; exact isArrowErr_msgRes n
          · rw [if_neg hseq]
            exact isArrowErr_validRes
      · rw [hb]; exact isArrowErr_sqRes n
      · rw [hb]; exact isArrowErr_parenRes n
      · rw [hb]; exact isArrowErr_braceRes n

/-- C1: for every document whose first line's trimmed text does not start with
any of the thirteen registered type keywords, `validateMermaidSyntax` returns
`Invalid` with lineNumber 1, an error message listing all valid types, and the
generic suggestion to add a type declaration (all carried by `typeRes`). -/
theorem claim1_unrecognized_type (d l0 : List Char) (rest : List (List Char))
    (hsplit : splitNl d = l0 :: rest)
    (hty : (validTypes.any fun t => List.isPrefixOf t (jsTrim l0)) = false) :
    validateMermaidSyntax d = some typeRes := by
  unfold validateMermaidSyntax
  rw [hsplit]
  simp only []
  rw [if_pos (by simp [hty])]

/-- C2, amended: for every document whose first line's trimmed text starts
with a registered type keyword, if some raw line is a content line with an
unequal count of one of the three delimiter pairs, `validateMermaidSyntax`
returns `Invalid` citing the first such line in top-to-bottom order, with its
1-based number and the delimiter kind chosen by the source's check order
(square brackets, then parentheses, then braces) with its suggestion. -/
theorem claim2_amended (d : List Char) (pre : List (List Char)) (l : List Char)
    (post : List (List Char))
    (hty : (validTypes.any fun t => List.isPrefixOf t (jsTrim ((splitNl d).headD []))) = true)
    (hsplit : splitNl d = pre ++ l :: post)
    (hbad : mismatchLine l = true)
    (hpre : pre.all (fun x => !(mismatchLine x)) = true) :
    validateMermaidSyntax d = some (mismatchRes (jsTrim l) (pre.length + 1)) := by
  have hpre2 : ∀ x ∈ pre, mismatchLine x = false := by
    intro x hx
    simpa using (List.all_eq_true.mp hpre) x hx
  have hscan : bracketScan (pre ++ l :: post) 0 =
      some (mismatchRes (jsTrim l) (pre.length + 1)) := by
    simpa using bracketScan_found pre 0 l post hbad hpre2
  rw [hsplit] at hty
  unfold validateMermaidSyntax
  rw [hsplit]
  cases pre with
  | nil =>
    simp only [List.headD_cons, List.nil_append] at hty hscan ⊢
    rw [if_neg (by simp [hty]), hscan]
  | cons p pre2 =>
    simp only [List.headD_cons, List.cons_append] at hty hscan ⊢
    rw [if_neg (by simp [hty]), hscan]

/-- C3: a flow-family document (first line starting with `graph` or
`flowchart`) that passes the bracket check and contains a content line
starting with `subgraph` with no subsequent content line exactly equal to
`end` makes `validateMermaidSyntax` return `Invalid` with message
"Unclosed subgraph", no line number, and the add-"end" suggestion. -/
theorem claim3_unclosed_subgraph (d : List Char) (pre : List (List Char)) (l : List Char)
    (post : List (List Char))
    (hflow : isFlowFamily d = true)
    (hsplit : splitNl d = pre ++ l :: post)
    (hnomis : (splitNl d).all (fun x => !(mismatchLine x)) = true)
    (hcont : contentLine (jsTrim l) = true)
    (hpfx : List.isPrefixOf (("subgraph").data) (jsTrim l) = true)
    (hnoend : post.all (fun x => !(contentLine (jsTrim x)) || !(jsTrim x == ("end").data)) = true) :
    validateMermaidSyntax d = some unclosedRes := by
  have hnoend2 : ∀ x ∈ post, contentLine (jsTrim x) = true → jsTrim x ≠ ("end").data := by
    intro x hx hc he
    have hax := (List.all_eq_true.mp hnoend) x hx
    rw [hc, he] at hax
    simp at hax
  have hnomis2 : ∀ x ∈ splitNl d, mismatchLine x = false := by
    intro x hx
    simpa using (List.all_eq_true.mp hnomis) x hx
  have hbr := bracketScan_none (splitNl d) 0 hnomis2
  have hfs := flowScan_unclosed pre 0 false l post hcont hpfx hnoend2
  unfold isFlowFamily at hflow
  rw [hsplit] at hflow hbr
  have hty : (validTypes.any fun t =>
      List.isPrefixOf t (jsTrim ((pre ++ l :: post).headD []))) = true := by
    have hflow2 := hflow
    rw [Bool.or_eq_true] at hflow2
    rcases hflow2 with h | h
    · exact any_validTypes_graph _ h
    · exact any_validTypes_flowchart _ h
  unfold validateMermaidSyntax
  rw [hsplit]
  cases pre with
  | nil =>
    simp only [List.headD_cons, List.nil_append] at hty hflow hbr hfs ⊢
    rw [if_neg (by simp [hty]), hbr]
    simp only []
    rw [if_pos hflow, hfs]
  | cons p pre2 =>
    simp only [List.headD_cons, List.cons_append] at hty hflow hbr hfs ⊢
    rw [if_neg (by simp [hty]), hbr]
    simp only []
    rw [if_pos hflow, hfs]

/-- C4, amended: for a sequence-diagram document that passes the bracket
check, the first content line containing a message-arrow token (`->>` or
`-->>`) that does not match the message pattern makes `validateMermaidSyntax`
return `Invalid` with the invalid-message-syntax error at that line and the
suggestion `Use format: Actor1->>Actor2: Message`; conversely the line
`A->>B: hello` passes the message-grammar check. -/
theorem claim4_amended (d : List Char) (pre : List (List Char)) (l : List Char)
    (post : List (List Char))
    (hseq : List.isPrefixOf (("sequenceDiagram").data) (jsTrim ((splitNl d).headD [])) = true)
    (hsplit : splitNl d = pre ++ l :: post)
    (hnomis : (splitNl d).all (fun x => !(mismatchLine x)) = true)
    (hbad : badMsgLine l = true)
    (hpre : pre.all (fun x => !(badMsgLine x)) = true) :
    validateMermaidSyntax d = some (msgRes (pre.length + 1)) ∧
    seqMsgMatch (("A->>B: hello").data) = true := by
  refine ⟨?_, by decide⟩
  have hpre2 : ∀ x ∈ pre, badMsgLine x = false := by
    intro x hx
    simpa using (List.all_eq_true.mp hpre) x hx
  have hnomis2 : ∀ x ∈ splitNl d, mismatchLine x = false := by
    intro x hx
    simpa using (List.all_eq_true.mp hnomis) x hx
  have hbr := bracketScan_none (splitNl d) 0 hnomis2
  have hscan : seqScan (pre ++ l :: post) 0 [] = msgRes (pre.length + 1) := by
    simpa using seqScan_found pre 0 [] l post hbad hpre2
  rw [hsplit] at hseq hbr
  have hty : (validTypes.any fun t =>
      List.isPrefixOf t (jsTrim ((pre ++ l :: post).headD []))) = true :=
    any_validTypes_seq _ hseq
  have hnf := seq_not_flow _ hseq
  unfold validateMermaidSyntax
  rw [hsplit]
  cases pre with
  | nil =>
    simp only [List.headD_cons, List.nil_append] at hty hseq hnf hbr hscan ⊢
    rw [if_neg (by simp [hty]), hbr]
    simp only []
    rw [if_neg (by simp [hnf]), if_pos hseq, hscan]
  | cons p pre2 =>
    simp only [List.headD_cons, List.cons_append] at hty hseq hnf hbr hscan ⊢
    rw [if_neg (by simp [hty]), hbr]
    simp only []
    rw [if_neg (by simp [hnf]), if_pos hseq, hscan]

lemma detectLineType_eq_spec (t : List Char) : detectLineType t = specDetectLine t := by
  unfold detectLineType specDetectLine detectRegistry
  cases h1 : List.isPrefixOf (("graph").data) t with
  | true => simp [List.find?, h1]
  | false =>
    cases h2 : List.isPrefixOf (("flowchart").data) t with
    | true => simp [List.find?, h1, h2]
    | false =>
      cases h3 : List.isPrefixOf (("sequenceDiagram").data) t with
      | true => simp [List.find?, h1, h2, h3]
      | false =>
        cases h4 : List.isPrefixOf (("classDiagram").data) t with
        | true => simp [List.find?, h1, h2, h3, h4]
        | false =>
          cases h5 : List.isPrefixOf (("stateDiagram").data) t with
          | true => simp [List.find?, h1, h2, h3, h4, h5]
          | false =>
            cases h6 : List.isPrefixOf (("erDiagram").data) t with
            | true => simp [List.find?, h1, h2, h3, h4, h5, h6]
            | false =>
              cases h7 : List.isPrefixOf (("gantt").data) t with
              | true => simp [List.find?, h1, h2, h3, h4, h5, h6, h7]
              | false =>
                cases h8 : List.isPrefixOf (("pie").data) t with
                | true => simp [List.find?, h1, h2, h3, h4, h5, h6, h7, h8]
                | false =>
                  cases h9 : List.isPrefixOf (("journey").data) t with
                  | true => simp [List.find?, h1, h2, h3, h4, h5, h6, h7, h8, h9]
                  | false =>
                    cases h10 : List.isPrefixOf (("gitGraph").data) t with
                    | true => simp [List.find?, h1, h2, h3, h4, h5, h6, h7, h8, h9, h10]
                    | false =>
                      cases h11 : List.isPrefixOf (("mindmap").data) t with
                      | true => simp [List.find?, h1, h2, h3, h4, h5, h6, h7, h8, h9, h10, h11]
                      | false =>
                        cases h12 : List.isPrefixOf (("timeline").data) t with
                        | true => simp [List.find?, h1, h2, h3, h4, h5, h6, h7, h8, h9, h10, h11, h12]
                        | false =>
                          simp [List.find?, h1, h2, h3, h4, h5, h6, h7, h8, h9, h10, h11, h12]

/-- C5, amended: the diagram type is determined from the document's first
line (line index 1, even when blank): for every document, `detectDiagramType`
equals the type selected by matching the registered keywords, in registry
order, against the first line's trimmed text; the detector is a pure function
of the document, so the type cannot change during a validation call. -/
theorem claim5_amended (d : List Char) : detectDiagramType d = specDetectFirstLine d := by
  unfold detectDiagramType specDetectFirstLine
  exact detectLineType_eq_spec _

/-- C5, counterexample: on the document `\ngraph TD`, whose first line is
blank, `detectDiagramType` reports `unknown`, while matching the registered
keywords against the first NON-blank line (as the claim and spec §3 state)
selects `flowchart`: the detector reads line index 1, not the first non-blank
line. -/
theorem claim5_counterexample :
    detectDiagramType (("\ngraph TD").data) = ("unknown").data ∧
    specDetectFirstNonBlank (("\ngraph TD").data) = ("flowchart").data ∧
    decide ((("unknown").data : List Char) = ("flowchart").data) = false :=
  ⟨by decide, by decide, by decide⟩

/-- C6: a connector line that splits into fewer than two segments is
equivalent to `validateMermaidSyntax` returning the invalid-arrow-syntax
failure at that line.  Both sides of this equivalence are in fact
unsatisfiable — `splitArrows_ge_two` shows a line containing a connector
token always splits into at least two segments, so the conditional the claim
states holds (vacuously): the cited branch can never fire. -/
theorem claim6_arrow_branch (d : List Char) (pre : List (List Char)) (l : List Char)
    (post : List (List Char)) :
    (splitNl d = pre ++ l :: post ∧ isFlowFamily d = true ∧
     containsArrow (jsTrim l) = true ∧ (splitArrows (jsTrim l)).length < 2) ↔
    validateMermaidSyntax d = some (arrowRes (pre.length + 1)) := by
  constructor
  · rintro ⟨-, -, hc, hlt⟩
    exact absurd (splitArrows_ge_two _ hc) (by omega)
  · intro h
    have h1 := validate_no_arrow d
    rw [h] at h1
    rw [show resultCitesArrow (some (arrowRes (pre.length + 1))) = true from
      isArrowErr_arrowRes _] at h1
    simp at h1

/-- C7: the core never raises an unrecoverable fault: for every input
string — the empty string included — `validateMermaidSyntax` returns a result
(`none`, the model of the only conceivable exception site, is never hit), and
it terminates by construction of the embedding. -/
theorem claim7_totality (d : List Char) : (validateMermaidSyntax d).isSome = true := by
  unfold validateMermaidSyntax
  cases hs : splitNl d with
  | nil => exact absurd hs (splitNl_ne_nil d)
  | cons l0 rest =>
    simp only []
    by_cases hty : (!(validTypes.any fun t => List.isPrefixOf t (jsTrim l0))) = true
    · rw [if_pos hty]; rfl
    · rw [if_neg hty]
      cases hb : bracketScan (l0 :: rest) 0 with
      | some r => simp
      | none =>
        simp only []
        by_cases hflow : (List.isPrefixOf (("graph").data) (jsTrim l0) ||
            List.isPrefixOf (("flowchart").data) (jsTrim l0)) = true
        · rw [if_pos hflow]; rfl
        · rw [if_neg hflow]
          by_cases hseq : (List.isPrefixOf (("sequenceDiagram").data) (jsTrim l0)) = true
          · rw [if_pos hseq]; rfl
          · rw [if_neg hseq]; rfl

/-- C8: validation is deterministic and stateless: two calls on the same
text yield identical verdicts, messages, line numbers, suggestions, diagram
types and node counts.  The source functions touch no state outside their
locals, which is what lets the call be modelled as the pure function
`validateResponse`. -/
theorem claim8_deterministic (d e : List Char) (h : d = e) :
    validateResponse d = validateResponse e := by rw [h]

theorem claim8_witness :
    validateResponse (("graph TD").data) = validateResponse (("graph TD").data) :=
  claim8_deterministic (("graph TD").data) (("graph TD").data) rfl

/-- C9: the document `graph TD\n  A[Start] --> B[End]` validates, its
detected type is `flowchart`, and the reported node count (label-bracket
matches plus the connection-identifier set's size, per `countNodes`) is at
least 2. -/
theorem claim9_example :
    validateMermaidSyntax (("graph TD\n  A[Start] --> B[End]").data) = some validRes ∧
    detectDiagramType (("graph TD\n  A[Start] --> B[End]").data) = ("flowchart").data ∧
    2 ≤ countNodes (("graph TD\n  A[Start] --> B[End]").data) :=
  ⟨by decide, by decide, by decide⟩

/-- C10: the invalid-arrow-syntax branch is unreachable: no input ever makes
`validateMermaidSyntax` produce a result whose error cites invalid arrow
syntax, because a line containing a connector token always splits into at
least two segments (second conjunct: the branch's guard is always false). -/
theorem claim10_no_arrow_error (d t : List Char) :
    resultCitesArrow (validateMermaidSyntax d) = false ∧
    (containsArrow t && decide ((splitArrows t).length < 2)) = false :=
  ⟨validate_no_arrow d, flow_branch_false t⟩

theorem claim1_witness :
    (validTypes.any fun t => List.isPrefixOf t (jsTrim (("not a diagram").data))) = false ∧
    validateMermaidSyntax (("not a diagram").data) = some typeRes :=
  ⟨by decide, claim1_unrecognized_type (("not a diagram").data) (("not a diagram").data) []
    (by decide) (by decide)⟩

/-- C2, counterexample: the document `x[` has a content line (its line 1) with
unequal square-bracket counts, yet `validateMermaidSyntax` returns the
diagram-type failure, not the square-bracket failure the claim asserts: the
type check runs first and preempts the bracket balancer. -/
theorem claim2_counterexample :
    mismatchLine (("x[").data) = true ∧
    validateMermaidSyntax (("x[").data) = some typeRes ∧
    decide (validateMermaidSyntax (("x[").data) = some (sqRes 1)) = false :=
  ⟨by decide, by decide, by decide⟩

theorem claim2_witness :
    validateMermaidSyntax (("flowchart TD\n  A[Start --> B[End]").data) = some (sqRes 2) :=
  claim2_amended (("flowchart TD\n  A[Start --> B[End]").data)
    [("flowchart TD").data] (("  A[Start --> B[End]").data) []
    (by decide) (by decide) (by decide) (by decide)

theorem claim3_witness :
    validateMermaidSyntax (("flowchart TD\n  subgraph g1\n  A-->B").data) = some unclosedRes :=
  claim3_unclosed_subgraph (("flowchart TD\n  subgraph g1\n  A-->B").data)
    [("flowchart TD").data] (("  subgraph g1").data) [("  A-->B").data]
    (by decide) (by decide) (by decide) (by decide) (by decide) (by decide)

/-- C4, counterexample: in the sequence diagram `sequenceDiagram\n(\nx ->> : y`,
line 3 is a content line containing a message-arrow token that fails the
message grammar, yet `validateMermaidSyntax` reports the unmatched-parenthesis
failure of line 2, not the invalid-message-syntax failure at line 3 that the
claim asserts: the bracket balancer runs first and preempts it. -/
theorem claim4_counterexample :
    badMsgLine (("x ->> : y").data) = true ∧
    validateMermaidSyntax (("sequenceDiagram\n(\nx ->> : y").data) = some (parenRes 2) ∧
    decide (validateMermaidSyntax (("sequenceDiagram\n(\nx ->> : y").data) =
      some (msgRes 3)) = false :=
  ⟨by decide, by decide, by decide⟩

theorem claim4_witness :
    validateMermaidSyntax (("sequenceDiagram\nA->>").data) = some (msgRes 2) ∧
    seqMsgMatch (("A->>B: hello").data) = true :=
  claim4_amended (("sequenceDiagram\nA->>").data) [("sequenceDiagram").data]
    (("A->>").data) [] (by decide) (by decide) (by decide) (by decide) (by decide)

end Mermaid
